import Mathlib

/-!
Shallow embedding of the Project/Skill Catalog and Sync Service of the
portfolio server (src/server/src/index.ts, with the MongoDB revision in
src/unnamed/part_001 consulted where the claims cite it).

JavaScript numbers that can become negative infinity (Math.max of an empty
spread) are modelled by the type JSNum below; all other numbers in the
relevant code paths are integers and are modelled as Int.
-/

/-- A JavaScript number as used for project ids: either an ordinary integer
or negative infinity (the value of Math.max() with no arguments). -/
inductive JSNum where
  | negInf : JSNum
  | num : Int → JSNum
deriving DecidableEq, Repr

/-- JavaScript Math.max on two values, with negative infinity as absorbed
identity. -/
def jmax : JSNum → JSNum → JSNum
  | JSNum.negInf, b => b
  | a, JSNum.negInf => a
  | JSNum.num x, JSNum.num y => JSNum.num (max x y)

/-- Adding 1 to a JavaScript number; negative infinity plus one is still
negative infinity. -/
def jadd1 : JSNum → JSNum
  | JSNum.negInf => JSNum.negInf
  | JSNum.num n => JSNum.num (n + 1)

/-- The Project record of index.ts. -/
structure Project where
  id : JSNum
  title : String
  description : Option String
  tech : List String
  demoUrl : Option String
  sourceUrl : Option String
  featured : Bool
deriving DecidableEq, Repr

/-- Skill category union of index.ts. -/
inductive SkillCategory where
  | frontend | backend | tools | database
deriving DecidableEq, Repr

/-- The Skill record of index.ts. -/
structure Skill where
  name : String
  level : Int
  category : SkillCategory
deriving DecidableEq, Repr

/-- The module-level mutable state of index.ts: the GitHub-imported project
list, the technology tag list, the numeric id generator, the dashboard
collections, and the active session token set. -/
structure Catalog where
  projectsFromGithub : List Project
  techs : List String
  nextId : Int
  dashboardProjects : List Project
  dashboardSkills : List Skill
  currentlyLearning : List String
  activeSessions : List String
deriving DecidableEq, Repr

/-- JavaScript String.prototype.replace with an empty replacement: removes
the first occurrence of the pattern, leaving the rest of the string intact. -/
def replaceFirst (s pat : String) : String :=
  match s.splitOn pat with
  | [] => s
  | [x] => x
  | x :: rest => x ++ String.intercalate pat rest

/-- Token extraction of requireAuth: the Authorization header, when present,
with the first occurrence of the Bearer prefix removed. -/
def extractToken (auth : Option String) : Option String :=
  auth.map (fun h => replaceFirst h "Bearer ")

/-- The requireAuth check of index.ts: the request passes iff a token was
extracted, it is not the empty string (falsy), and it is in the active
session set. -/
def authOk (st : Catalog) (auth : Option String) : Bool :=
  match extractToken auth with
  | none => false
  | some t => if t = "" then false else st.activeSessions.contains t

/-- A partial Project payload as accepted by PUT /api/dashboard/projects/:id.
Each field is present or absent; a present field carries the new value. -/
structure ProjectPatch where
  id : Option JSNum := none
  title : Option String := none
  description : Option (Option String) := none
  tech : Option (List String) := none
  demoUrl : Option (Option String) := none
  sourceUrl : Option (Option String) := none
  featured : Option Bool := none
deriving DecidableEq, Repr

/-- The JavaScript object spread of the PUT handler: fields present in the
payload override the stored record, fields absent keep their stored value.
Note that a payload id overrides the stored id, exactly as the spread does. -/
def mergePatch (p : Project) (b : ProjectPatch) : Project :=
  { id := b.id.getD p.id
    title := b.title.getD p.title
    description := b.description.getD p.description
    tech := b.tech.getD p.tech
    demoUrl := b.demoUrl.getD p.demoUrl
    sourceUrl := b.sourceUrl.getD p.sourceUrl
    featured := b.featured.getD p.featured }

/-- findIndex on id followed by in-place assignment of the merged record:
replaces the first record whose id matches, returning the merged record and
the new list, or none when no record matches. -/
def updateList (l : List Project) (id : JSNum) (b : ProjectPatch) :
    Option (Project × List Project) :=
  match l with
  | [] => none
  | p :: rest =>
    if p.id = id then some (mergePatch p b, mergePatch p b :: rest)
    else (updateList rest id b).map (fun r => (r.1, p :: r.2))

/-- findIndex on id followed by splice(index, 1): removes the first record
whose id matches, or none when no record matches. -/
def deleteFirst (l : List Project) (id : JSNum) : Option (List Project) :=
  match l with
  | [] => none
  | p :: rest =>
    if p.id = id then some rest
    else (deleteFirst rest id).map (fun r => p :: r)

/-- Outcome of a catalog operation, mirroring the HTTP statuses the handlers
produce. -/
inductive Status where
  | ok | unauthorized | notFound
deriving DecidableEq, Repr

/-- The body accepted by POST /api/dashboard/projects. The handler spreads
the body over the freshly computed id, so a body id (when present) overrides
the computed one. -/
structure CreateBody where
  id : Option JSNum := none
  title : String
  description : Option String := none
  tech : List String := []
  demoUrl : Option String := none
  sourceUrl : Option String := none
  featured : Bool := false
deriving DecidableEq, Repr

/-- Math.max over the ids of the dashboard project list, spread into the
call: negative infinity when the list is empty. -/
def jsMaxIds (l : List Project) : JSNum :=
  (l.map (fun p => p.id)).foldl jmax JSNum.negInf

/-- Catalog Store createProject, from the POST /api/dashboard/projects
handler: computes Math.max of the existing ids plus one, builds the record
with the body spread over that id, pushes it, and returns it. -/
def createProject (st : Catalog) (b : CreateBody) : Project × Catalog :=
  let computed := jadd1 (jsMaxIds st.dashboardProjects)
  let p : Project :=
    { id := b.id.getD computed
      title := b.title
      description := b.description
      tech := b.tech
      demoUrl := b.demoUrl
      sourceUrl := b.sourceUrl
      featured := b.featured }
  (p, { st with dashboardProjects := st.dashboardProjects ++ [p] })

/-- Catalog Store updateProject, from the PUT /api/dashboard/projects/:id
handler: 404 when no record has the id, otherwise replaces the first match
with the spread of the payload over it. -/
def updateProject (st : Catalog) (id : Int) (b : ProjectPatch) :
    Status × Option Project × Catalog :=
  match updateList st.dashboardProjects (JSNum.num id) b with
  | none => (Status.notFound, none, st)
  | some r => (Status.ok, some r.1, { st with dashboardProjects := r.2 })

/-- Catalog Store deleteProject, from the DELETE /api/dashboard/projects/:id
handler: 404 when no record has the id, otherwise splices out the first
match. -/
def deleteProject (st : Catalog) (id : Int) : Status × Catalog :=
  match deleteFirst st.dashboardProjects (JSNum.num id) with
  | none => (Status.notFound, st)
  | some l => (Status.ok, { st with dashboardProjects := l })

/-- The fields of a GitHub repository that loadProjects reads. -/
structure Repo where
  name : String
  description : Option String
  language : Option String
  html_url : String
deriving DecidableEq, Repr

/-- fetchAllRepos of index.ts over an abstract paginated source: requests
successive pages of size 100 starting at page 1, accumulating results, and
stops after the first page shorter than 100. A failing page aborts the whole
fetch with an error; fuel bounds the recursion and its exhaustion is also
reported as an error. -/
def fetchPages (pages : Nat → Except Unit (List Repo)) :
    Nat → Nat → List Repo → Except Unit (List Repo)
  | 0, _, _ => Except.error ()
  | fuel + 1, page, acc =>
    match pages page with
    | Except.error e => Except.error e
    | Except.ok data =>
      if data.length < 100 then Except.ok (acc ++ data)
      else fetchPages pages fuel (page + 1) (acc ++ data)

/-- The forEach body of loadProjects applied to one repository: build a
Project from the repo with the next generator id, push it onto
projectsFromGithub, and append its language to the tag list when new. -/
def importOne (acc : Catalog) (repo : Repo) : Catalog :=
  let p : Project :=
    { id := JSNum.num acc.nextId
      title := repo.name
      description := repo.description
      tech := match repo.language with | some l => [l] | none => []
      demoUrl := none
      sourceUrl := some repo.html_url
      featured := false }
  { acc with
    projectsFromGithub := acc.projectsFromGithub ++ [p]
    nextId := acc.nextId + 1
    techs := match repo.language with
      | some l => if acc.techs.contains l then acc.techs else acc.techs ++ [l]
      | none => acc.techs }

/-- loadProjects of index.ts: fetch all repositories; on success run the
forEach over them and then reset dashboardProjects to a copy of
projectsFromGithub; on any fetch failure catch the error and leave all state
untouched. -/
def loadProjects (pages : Nat → Except Unit (List Repo)) (fuel : Nat)
    (st : Catalog) : Catalog :=
  match fetchPages pages fuel 1 [] with
  | Except.error _ => st
  | Except.ok repos =>
    let st1 := repos.foldl importOne st
    { st1 with dashboardProjects := st1.projectsFromGithub }

/-- PUT /api/dashboard/projects/:id behind requireAuth. -/
def putProjectRoute (st : Catalog) (auth : Option String) (id : Int)
    (b : ProjectPatch) : Status × Option Project × Catalog :=
  if authOk st auth then updateProject st id b
  else (Status.unauthorized, none, st)

/-- POST /api/dashboard/projects behind requireAuth. -/
def postProjectRoute (st : Catalog) (auth : Option String) (b : CreateBody) :
    Status × Option Project × Catalog :=
  if authOk st auth then
    let r := createProject st b
    (Status.ok, some r.1, r.2)
  else (Status.unauthorized, none, st)

/-- DELETE /api/dashboard/projects/:id behind requireAuth. -/
def deleteProjectRoute (st : Catalog) (auth : Option String) (id : Int) :
    Status × Catalog :=
  if authOk st auth then deleteProject st id
  else (Status.unauthorized, st)

/-- PUT /api/dashboard/skills behind requireAuth: bulk replacement of the
skills collection. -/
def putSkillsRoute (st : Catalog) (auth : Option String) (skills : List Skill) :
    Status × Catalog :=
  if authOk st auth then (Status.ok, { st with dashboardSkills := skills })
  else (Status.unauthorized, st)

/-- PUT /api/dashboard/learning behind requireAuth: bulk replacement of the
currently-learning list. -/
def putLearningRoute (st : Catalog) (auth : Option String) (l : List String) :
    Status × Catalog :=
  if authOk st auth then (Status.ok, { st with currentlyLearning := l })
  else (Status.unauthorized, st)

/-- POST /api/dashboard/refresh-github behind requireAuth: re-runs
loadProjects. -/
def refreshGithubRoute (pages : Nat → Except Unit (List Repo)) (fuel : Nat)
    (st : Catalog) (auth : Option String) : Status × Catalog :=
  if authOk st auth then (Status.ok, loadProjects pages fuel st)
  else (Status.unauthorized, st)

/-- The 24-hour session lifetime of index.ts in milliseconds. -/
def sessionExpiryMs : Int := 24 * 60 * 60 * 1000

/-- Stateful strategy (index.ts): a token added to activeSessions at issue
time is removed by the timer scheduled for sessionExpiryMs later, so at time
now it is still in the set iff now is before issuedAt plus the lifetime. -/
def statefulTokenActive (issuedAt now : Int) : Bool :=
  decide (now < issuedAt + sessionExpiryMs)

/-- The 24-hour expiresIn of the JWT revision (src/unnamed/part_001) in
seconds. -/
def jwtExpSeconds : Int := 24 * 60 * 60

/-- Stateless strategy (src/unnamed/part_001): jwt.sign embeds
exp = iat + 24h and jwt.verify accepts iff the clock is still strictly
before exp. -/
def jwtVerifyTime (iat now : Int) : Bool :=
  decide (now < iat + jwtExpSeconds)

/-! ### Concrete scenario states for the import claims -/

/-- The module-level state of index.ts right after initialization, before
loadProjects has run: empty project collections, the tag sentinel, the id
generator at 1, the six default skills, and the default learning list. -/
def initialCatalog : Catalog :=
  { projectsFromGithub := []
    techs := ["all"]
    nextId := 1
    dashboardProjects := []
    dashboardSkills :=
      [ { name := "TypeScript", level := 95, category := SkillCategory.frontend }
      , { name := "React", level := 90, category := SkillCategory.frontend }
      , { name := "Node.js", level := 85, category := SkillCategory.backend }
      , { name := "MongoDB", level := 80, category := SkillCategory.database }
      , { name := "TailwindCSS", level := 88, category := SkillCategory.frontend }
      , { name := "Express.js", level := 95, category := SkillCategory.backend } ]
    currentlyLearning := ["Typescript", "React", "TailwindCSS"]
    activeSessions := [] }

/-- An upstream repository X. -/
def repoX : Repo :=
  { name := "X"
    description := some "desc"
    language := some "TypeScript"
    html_url := "https://github.com/Grizak/X" }

/-- An upstream account whose repository list is always the single repo X
(one page, shorter than the page size). -/
def pagesX : Nat → Except Unit (List Repo) := fun _ => Except.ok [repoX]

/-- Catalog after the first import of repo X. -/
def c1AfterFirstImport : Catalog := loadProjects pagesX 2 initialCatalog

/-- Catalog after the admin sets featured to true on the imported project
(id 1) through the PUT endpoint. -/
def c1AfterAdminEdit : Catalog :=
  (updateProject c1AfterFirstImport 1 { featured := some true }).2.2

/-- Catalog after re-running the import with repo X still upstream. -/
def c1AfterSecondImport : Catalog := loadProjects pagesX 2 c1AfterAdminEdit

/-- A minimal create body. -/
def cbodyT : CreateBody := { title := "T" }

/-- A standalone project with id 1. -/
def pOne : Project :=
  { id := JSNum.num 1
    title := "A"
    description := none
    tech := []
    demoUrl := none
    sourceUrl := none
    featured := false }

/-- A catalog whose dashboard holds exactly the project with id 1. -/
def stOne : Catalog := { initialCatalog with dashboardProjects := [pOne] }

/-- Claim C1. Re-running the GitHub import does not preserve admin edits:
after importing repo X, setting featured to true on it, and importing again,
every dashboard record originating from X has featured back to false, and the
record is even duplicated. The claim says featured stays true; the code
re-maps the upstream list onto fresh records and resets the dashboard to the
accumulated GitHub list. -/
theorem c1_refresh_discards_featured :
    (c1AfterAdminEdit.dashboardProjects.map (fun p => p.featured)) = [true]
    ∧ (c1AfterSecondImport.dashboardProjects.map
        (fun p => (p.sourceUrl, p.featured)))
      = [(some "https://github.com/Grizak/X", false),
         (some "https://github.com/Grizak/X", false)] := by
  exact ⟨rfl, rfl⟩

/-- Claim C2. The import is not idempotent: with the upstream list fixed at
the single repo X and no admin edits, the first run leaves one dashboard
record and the second run leaves two (a duplicate with a fresh id), so the
project collection is not unchanged. -/
theorem c2_second_import_not_idempotent :
    (loadProjects pagesX 2 initialCatalog).dashboardProjects.length = 1
    ∧ (loadProjects pagesX 2 (loadProjects pagesX 2 initialCatalog)).dashboardProjects.length = 2
    ∧ (loadProjects pagesX 2 (loadProjects pagesX 2 initialCatalog)).dashboardProjects
        ≠ (loadProjects pagesX 2 initialCatalog).dashboardProjects := by
  refine ⟨rfl, rfl, ?_⟩
  decide

/-- Claim C3. createProject on an empty collection does not assign id 1: the
spread Math.max of no ids is negative infinity, so the returned record and
the stored record both carry id negative infinity. -/
theorem c3_create_on_empty_assigns_negInf :
    (createProject initialCatalog cbodyT).1.id = JSNum.negInf
    ∧ ((createProject initialCatalog cbodyT).2.dashboardProjects.map
        (fun p => p.id)) = [JSNum.negInf] := by
  exact ⟨rfl, rfl⟩

/-- Claim C4, counterexample. Starting from a catalog holding only id 1:
create assigns id 2, deleting id 2 and creating again assigns id 2 a second
time, so an id is assigned twice within one process lifetime. -/
theorem c4_counterexample_id_reused :
    ((createProject stOne cbodyT).1.id = JSNum.num 2)
    ∧ ((createProject
          (deleteProject (createProject stOne cbodyT).2 2).2 cbodyT).1.id
        = JSNum.num 2) := by
  exact ⟨rfl, rfl⟩

/-- Claim C6, counterexample. Updating project 1 with a payload that carries
id 99 overwrites the stored id: the spread of the payload over the record
lets the supplied id win, so the record and the returned project both carry
id 99 afterwards. -/
theorem c6_counterexample_id_overwritten :
    ((updateProject stOne 1 { id := some (JSNum.num 99) }).2.2.dashboardProjects.map
        (fun p => p.id)) = [JSNum.num 99]
    ∧ (updateProject stOne 1 { id := some (JSNum.num 99) }).2.1
        = some { pOne with id := JSNum.num 99 } := by
  exact ⟨rfl, rfl⟩

/-! ### Structural lemmas about the list operations -/

/-- updateList replaces the first matching record and nothing else. -/
theorem updateList_decomp (pre : List Project) (p : Project)
    (post : List Project) (id : JSNum) (b : ProjectPatch)
    (hpre : ∀ q ∈ pre, ¬ q.id = id) (hp : p.id = id) :
    updateList (pre ++ p :: post) id b
      = some (mergePatch p b, pre ++ mergePatch p b :: post) := by
  induction pre with
  | nil => simp [updateList, hp]
  | cons q qs ih =>
    have hq : ¬ q.id = id := hpre q (by simp)
    have ih2 := ih (fun r hr => hpre r (by simp [hr]))
    simp [updateList, hq, ih2]

/-- updateList finds nothing when no record matches. -/
theorem updateList_none (l : List Project) (id : JSNum) (b : ProjectPatch)
    (h : ∀ q ∈ l, ¬ q.id = id) : updateList l id b = none := by
  induction l with
  | nil => rfl
  | cons q qs ih =>
    have hq : ¬ q.id = id := h q (by simp)
    have ih2 := ih (fun r hr => h r (by simp [hr]))
    simp [updateList, hq, ih2]

/-- deleteFirst removes the first matching record and nothing else. -/
theorem deleteFirst_decomp (pre : List Project) (p : Project)
    (post : List Project) (id : JSNum)
    (hpre : ∀ q ∈ pre, ¬ q.id = id) (hp : p.id = id) :
    deleteFirst (pre ++ p :: post) id = some (pre ++ post) := by
  induction pre with
  | nil => simp [deleteFirst, hp]
  | cons q qs ih =>
    have hq : ¬ q.id = id := hpre q (by simp)
    have ih2 := ih (fun r hr => hpre r (by simp [hr]))
    simp [deleteFirst, hq, ih2]

/-- deleteFirst finds nothing when no record matches. -/
theorem deleteFirst_none (l : List Project) (id : JSNum)
    (h : ∀ q ∈ l, ¬ q.id = id) : deleteFirst l id = none := by
  induction l with
  | nil => rfl
  | cons q qs ih =>
    have hq : ¬ q.id = id := h q (by simp)
    have ih2 := ih (fun r hr => h r (by simp [hr]))
    simp [deleteFirst, hq, ih2]

/-- A payload that only sets featured. -/
def featuredPatch (v : Bool) : ProjectPatch := { featured := some v }

/-- Claim C7. Updating with a featured-only payload rewrites exactly the
featured field of the matched record and nothing else in the catalog, and in
general every field absent from a payload keeps its prior value after the
merge. -/
theorem c7_update_featured_frame :
    (∀ (st : Catalog) (id : Int) (v : Bool) (pre post : List Project)
        (p : Project),
        st.dashboardProjects = pre ++ p :: post →
        (∀ q ∈ pre, ¬ q.id = JSNum.num id) →
        p.id = JSNum.num id →
        updateProject st id (featuredPatch v)
          = (Status.ok, some { p with featured := v },
             { st with dashboardProjects :=
                pre ++ { p with featured := v } :: post }))
    ∧ (∀ (p : Project) (b : ProjectPatch),
        (b.title = none → (mergePatch p b).title = p.title)
        ∧ (b.description = none → (mergePatch p b).description = p.description)
        ∧ (b.tech = none → (mergePatch p b).tech = p.tech)
        ∧ (b.demoUrl = none → (mergePatch p b).demoUrl = p.demoUrl)
        ∧ (b.sourceUrl = none → (mergePatch p b).sourceUrl = p.sourceUrl)
        ∧ (b.featured = none → (mergePatch p b).featured = p.featured)) := by
  constructor
  · intro st id v pre post p hdec hpre hp
    have hm : mergePatch p (featuredPatch v) = { p with featured := v } := by
      simp [mergePatch, featuredPatch]
    unfold updateProject
    rw [hdec, updateList_decomp pre p post _ _ hpre hp, hm]
  · intro p b
    refine ⟨?_, ?_, ?_, ?_, ?_, ?_⟩ <;> intro h <;> simp [mergePatch, h]

/-- Claim C7 witness: concrete instance of the featured-only update. -/
theorem c7_update_featured_frame_witness :
    updateProject stOne 1 (featuredPatch true)
      = (Status.ok, some { pOne with featured := true },
         { stOne with dashboardProjects := [{ pOne with featured := true }] }) := by
  have h := c7_update_featured_frame.1 stOne 1 true [] [] pOne rfl
      (by intro q hq; cases hq) rfl
  simpa using h

/-- Claim C10. deleteProject with an id held by exactly one record removes
exactly that record, keeps every other record in order, and leaves the
skills, learning and tag collections untouched; with an absent id it reports
NotFound and changes nothing. -/
theorem c10_delete_frame :
    (∀ (st : Catalog) (id : Int) (pre post : List Project) (p : Project),
        st.dashboardProjects = pre ++ p :: post →
        (∀ q ∈ pre, ¬ q.id = JSNum.num id) →
        (∀ q ∈ post, ¬ q.id = JSNum.num id) →
        p.id = JSNum.num id →
        deleteProject st id
          = (Status.ok, { st with dashboardProjects := pre ++ post }))
    ∧ (∀ (st : Catalog) (id : Int),
        (∀ q ∈ st.dashboardProjects, ¬ q.id = JSNum.num id) →
        deleteProject st id = (Status.notFound, st)) := by
  constructor
  · intro st id pre post p hdec hpre _ hp
    unfold deleteProject
    rw [hdec, deleteFirst_decomp pre p post _ hpre hp]
  · intro st id h
    unfold deleteProject
    rw [deleteFirst_none st.dashboardProjects _ h]

/-- Claim C10 witness: deleting the present id 1 removes exactly that record;
deleting the absent id 5 reports NotFound and changes nothing. -/
theorem c10_delete_frame_witness :
    deleteProject stOne 1 = (Status.ok, { stOne with dashboardProjects := [] })
    ∧ deleteProject stOne 5 = (Status.notFound, stOne) := by
  constructor
  · have h := c10_delete_frame.1 stOne 1 [] [] pOne rfl
        (by intro q hq; cases hq) (by intro q hq; cases hq) rfl
    simpa using h
  · exact c10_delete_frame.2 stOne 5 (by decide)

/-- Claim C6, amended. When the payload does not supply an id, updateProject
preserves ids: the returned record still carries the requested id and the
stored list of ids is unchanged. -/
theorem c6_amended_id_preserved (st : Catalog) (id : Int) (b : ProjectPatch)
    (pre post : List Project) (p : Project)
    (hb : b.id = none)
    (hdec : st.dashboardProjects = pre ++ p :: post)
    (hpre : ∀ q ∈ pre, ¬ q.id = JSNum.num id)
    (hp : p.id = JSNum.num id) :
    ((updateProject st id b).2.1.map (fun r => r.id) = some (JSNum.num id))
    ∧ ((updateProject st id b).2.2.dashboardProjects.map (fun r => r.id)
        = st.dashboardProjects.map (fun r => r.id)) := by
  have hml := updateList_decomp pre p post (JSNum.num id) b hpre hp
  have hid : (mergePatch p b).id = p.id := by simp [mergePatch, hb]
  unfold updateProject
  rw [hdec, hml]
  constructor
  · simp [hid, hp]
  · simp [hid]

/-- Claim C6 witness: a payload without an id field leaves the id of project
1 (and the list of stored ids) unchanged. -/
theorem c6_amended_id_preserved_witness :
    ((updateProject stOne 1 (featuredPatch true)).2.1.map (fun r => r.id)
      = some (JSNum.num 1))
    ∧ ((updateProject stOne 1 (featuredPatch true)).2.2.dashboardProjects.map
        (fun r => r.id)
      = stOne.dashboardProjects.map (fun r => r.id)) := by
  have h := c6_amended_id_preserved stOne 1 (featuredPatch true) [] [] pOne
      rfl rfl (by intro q hq; cases hq) rfl
  simpa using h

/-- Claim C5. Any request to a mutating dashboard route whose extracted
bearer token is absent, empty, or not in the active session set receives
Unauthorized, and the whole catalog state (projects, skills, learning list,
technology tags, sessions) is returned untouched, for all six mutating
routes. -/
theorem c5_auth_gate (st : Catalog) (auth : Option String)
    (h : ∀ t, extractToken auth = some t →
          t = "" ∨ st.activeSessions.contains t = false) :
    (∀ (id : Int) (b : ProjectPatch),
        putProjectRoute st auth id b = (Status.unauthorized, none, st))
    ∧ (∀ b : CreateBody,
        postProjectRoute st auth b = (Status.unauthorized, none, st))
    ∧ (∀ id : Int,
        deleteProjectRoute st auth id = (Status.unauthorized, st))
    ∧ (∀ sk : List Skill,
        putSkillsRoute st auth sk = (Status.unauthorized, st))
    ∧ (∀ l : List String,
        putLearningRoute st auth l = (Status.unauthorized, st))
    ∧ (∀ (pages : Nat → Except Unit (List Repo)) (fuel : Nat),
        refreshGithubRoute pages fuel st auth = (Status.unauthorized, st)) := by
  have hfalse : authOk st auth = false := by
    unfold authOk
    cases hau : extractToken auth with
    | none => rfl
    | some t =>
      rcases h t hau with h1 | h2
      · simp [h1]
      · by_cases ht : t = ""
        · simp [ht]
        · simp only [if_neg ht]
          exact h2
  refine ⟨?_, ?_, ?_, ?_, ?_, ?_⟩
  · intro id b; simp [putProjectRoute, hfalse]
  · intro b; simp [postProjectRoute, hfalse]
  · intro id; simp [deleteProjectRoute, hfalse]
  · intro sk; simp [putSkillsRoute, hfalse]
  · intro l; simp [putLearningRoute, hfalse]
  · intro pages fuel; simp [refreshGithubRoute, hfalse]

/-- Claim C5 witness: with no Authorization header all six mutating routes
reject with Unauthorized and hand back the initial catalog untouched. -/
theorem c5_auth_gate_witness :
    putProjectRoute initialCatalog none 1 (featuredPatch true)
        = (Status.unauthorized, none, initialCatalog)
    ∧ postProjectRoute initialCatalog none cbodyT
        = (Status.unauthorized, none, initialCatalog)
    ∧ deleteProjectRoute initialCatalog none 1
        = (Status.unauthorized, initialCatalog)
    ∧ putSkillsRoute initialCatalog none []
        = (Status.unauthorized, initialCatalog)
    ∧ putLearningRoute initialCatalog none ["Rust"]
        = (Status.unauthorized, initialCatalog)
    ∧ refreshGithubRoute pagesX 2 initialCatalog none
        = (Status.unauthorized, initialCatalog) := by
  have h := c5_auth_gate initialCatalog none
      (by intro t ht; simp [extractToken] at ht)
  exact ⟨h.1 1 (featuredPatch true), h.2.1 cbodyT, h.2.2.1 1,
    h.2.2.2.1 [], h.2.2.2.2.1 ["Rust"], h.2.2.2.2.2 pagesX 2⟩

/-- Claim C8. If the paginated fetch fails on any page (or never
terminates within its budget), loadProjects catches the error and returns
the catalog exactly as it was: nothing is committed and no tag is added. -/
theorem c8_fetch_failure_leaves_state
    (pages : Nat → Except Unit (List Repo)) (fuel : Nat) (st : Catalog)
    (e : Unit) (h : fetchPages pages fuel 1 [] = Except.error e) :
    loadProjects pages fuel st = st := by
  unfold loadProjects
  rw [h]

/-- Claim C8 witness: a source whose first page fails leaves the initial
catalog untouched. -/
theorem c8_fetch_failure_leaves_state_witness :
    loadProjects (fun _ => Except.error ()) 3 initialCatalog
      = initialCatalog := by
  exact c8_fetch_failure_leaves_state (fun _ => Except.error ()) 3
    initialCatalog () rfl

/-- Claim C9. Both token strategies accept a token at every instant strictly
before 24 hours after issuance and reject it at every instant strictly
after: the stateful active-set with its 24-hour removal timer, and the JWT
whose embedded expiry is 24 hours after issue. -/
theorem c9_token_expiry :
    (∀ t now : Int,
      (now < t + sessionExpiryMs → statefulTokenActive t now = true)
      ∧ (t + sessionExpiryMs < now → statefulTokenActive t now = false))
    ∧ (∀ t now : Int,
      (now < t + jwtExpSeconds → jwtVerifyTime t now = true)
      ∧ (t + jwtExpSeconds < now → jwtVerifyTime t now = false)) := by
  constructor <;> intro t now <;> constructor <;> intro h <;>
    simp only [statefulTokenActive, jwtVerifyTime, decide_eq_true_eq,
      decide_eq_false_iff_not] <;> omega

/-- Claim C9 witness: a token issued at time 0 is accepted at 23h59m and
rejected at 24h01m under both strategies (milliseconds for the stateful
store, seconds for the JWT). -/
theorem c9_token_expiry_witness :
    statefulTokenActive 0 86340000 = true
    ∧ statefulTokenActive 0 86460000 = false
    ∧ jwtVerifyTime 0 86340 = true
    ∧ jwtVerifyTime 0 86460 = false := by
  exact ⟨(c9_token_expiry.1 0 86340000).1 (by decide),
    (c9_token_expiry.1 0 86460000).2 (by decide),
    (c9_token_expiry.2 0 86340).1 (by decide),
    (c9_token_expiry.2 0 86460).2 (by decide)⟩

/-- A run of successive createProject calls, returning the assigned ids in
order together with the final catalog. -/
def createSeq (st : Catalog) : List CreateBody → List JSNum × Catalog
  | [] => ([], st)
  | b :: bs =>
    let r := createProject st b
    let rest := createSeq r.2 bs
    (r.1.id :: rest.1, rest.2)

/-- Strict order on JavaScript numbers restricted to finite values. -/
def jltP (a b : JSNum) : Prop :=
  ∃ x y : Int, a = JSNum.num x ∧ b = JSNum.num y ∧ x < y

/-- Appending one project pushes its id through the running Math.max. -/
theorem jsMaxIds_append (l : List Project) (p : Project) :
    jsMaxIds (l ++ [p]) = jmax (jsMaxIds l) p.id := by
  simp [jsMaxIds, List.foldl_append]

/-- Every id assigned by a run of creates (with no id in any body) from a
catalog whose current maximum id is the finite m is a finite value above m,
and the assigned ids are pairwise strictly increasing. -/
theorem createSeq_ids_above (bs : List CreateBody) :
    ∀ (st : Catalog) (m : Int), (∀ b ∈ bs, b.id = none) →
      jsMaxIds st.dashboardProjects = JSNum.num m →
      (∀ x ∈ (createSeq st bs).1, ∃ k : Int, x = JSNum.num k ∧ m < k)
      ∧ List.Pairwise jltP (createSeq st bs).1 := by
  induction bs with
  | nil =>
    intro st m _ _
    exact ⟨by simp [createSeq], by simp [createSeq]⟩
  | cons b bs ih =>
    intro st m hb hmax
    have hbid : b.id = none := hb b (List.mem_cons_self b bs)
    have hstep : (createProject st b).1.id = JSNum.num (m + 1) := by
      simp [createProject, hbid, hmax, jadd1]
    have hlist : (createProject st b).2.dashboardProjects
        = st.dashboardProjects ++ [(createProject st b).1] := by
      simp [createProject]
    have hmax2 : jsMaxIds (createProject st b).2.dashboardProjects
        = JSNum.num (m + 1) := by
      rw [hlist, jsMaxIds_append, hstep, hmax]
      simp [jmax]
    obtain ⟨habove, hpair⟩ := ih (createProject st b).2 (m + 1)
        (fun c hc => hb c (List.mem_cons_of_mem _ hc)) hmax2
    have htrace : (createSeq st (b :: bs)).1
        = (createProject st b).1.id :: (createSeq (createProject st b).2 bs).1 := by
      simp [createSeq]
    constructor
    · intro x hx
      rw [htrace] at hx
      rcases List.mem_cons.mp hx with h1 | h2
      · exact ⟨m + 1, by rw [h1, hstep], by omega⟩
      · obtain ⟨k, hk, hmk⟩ := habove x h2
        exact ⟨k, hk, by omega⟩
    · rw [htrace]
      refine List.pairwise_cons.mpr ⟨?_, hpair⟩
      intro y hy
      obtain ⟨k, hk, hmk⟩ := habove y hy
      exact ⟨m + 1, k, hstep, hk, by omega⟩

/-- Claim C4, amended. In a run of createProject calls with no intervening
deletions, with no id supplied in any body, starting from a catalog whose
current maximum id is finite (in particular a nonempty collection), the
assigned ids are pairwise strictly increasing, so no id is assigned twice. -/
theorem c4_amended_ids_increase (st : Catalog) (bs : List CreateBody)
    (m : Int) (hb : ∀ b ∈ bs, b.id = none)
    (hmax : jsMaxIds st.dashboardProjects = JSNum.num m) :
    List.Pairwise jltP (createSeq st bs).1 :=
  (createSeq_ids_above bs st m hb hmax).2

/-- Claim C4 witness: two creates on the catalog holding id 1 assign
strictly increasing ids. -/
theorem c4_amended_ids_increase_witness :
    List.Pairwise jltP (createSeq stOne [cbodyT, cbodyT]).1 := by
  exact c4_amended_ids_increase stOne [cbodyT, cbodyT] 1 (by decide) rfl
